import Mathlib

/-!
Verification of the `pycp` lexical front end (tokenizer + preprocessor).

The definitions below are a shallow embedding of `src/pycp/tokenizer.py`,
`src/pycp/token.py`, `src/pycp/errors.py` and `src/pycp/preprocessor.py`.
Python strings are modelled as `List Char` (a Python `str` is a sequence of
Unicode code points), indices as `Nat`, and Python exceptions as an explicit
error type threaded through `Except`.
-/

namespace Pycp

/-- Named characters, to keep the character tables readable. -/
def spChar : Char := Char.ofNat 32

def tabChar : Char := Char.ofNat 9

def lfChar : Char := Char.ofNat 10

def crChar : Char := Char.ofNat 13

def bsChar : Char := Char.ofNat 92

def sqChar : Char := Char.ofNat 39

def dqChar : Char := Char.ofNat 34

def btChar : Char := Char.ofNat 96

/-- Embeds `s[a:b]` for a Python string (with `0 ≤ a ≤ b`, the only shape used). -/
def pySlice (s : List Char) (a b : Nat) : List Char := (s.take b).drop a

/-- Embeds `s.startswith(p, i)` for a Python string. -/
def pyStartsWith (s p : List Char) (i : Nat) : Bool := p.isPrefixOf (s.drop i)

/-- Embeds `s.startswith(ps, i)` with a tuple of prefixes. -/
def pyStartsWithAny (s : List Char) (ps : List (List Char)) (i : Nat) : Bool :=
  ps.any (fun p => pyStartsWith s p i)

/-- Embeds `s.find(sub, start)` / `s.index(sub, start, len(s))`: index of the first
occurrence of `sub` at or after `start`, `none` when absent. -/
def pyFind (s sub : List Char) (start : Nat) : Option Nat :=
  (List.range (s.length + 1)).find? (fun i => decide (start ≤ i) && sub.isPrefixOf (s.drop i))

/-- First index `i` in `range(start, s.length)` whose character satisfies `p`
(the `next((i for i in range(...) if ...), default)` pattern, without the default). -/
def firstIdxFrom (s : List Char) (start : Nat) (p : Char → Bool) : Option Nat :=
  (List.range s.length).find? (fun i => decide (start ≤ i) && ((s.get? i).map p).getD false)

/-- Line-boundary characters of Python `str.splitlines`. -/
def isPySplitBoundary (c : Char) : Bool :=
  c.toNat = 10 || c.toNat = 11 || c.toNat = 12 || c.toNat = 13 ||
  c.toNat = 28 || c.toNat = 29 || c.toNat = 30 || c.toNat = 133 ||
  c.toNat = 8232 || c.toNat = 8233

/-- Worker for `str.splitlines` (CRLF counts as a single boundary). -/
def pySplitlinesAux : List Char → List Char → List (List Char)
  | [], acc => if acc.isEmpty then [] else [acc.reverse]
  | [c], acc => if isPySplitBoundary c then [acc.reverse] else [(c :: acc).reverse]
  | c :: c2 :: rest, acc =>
    if c = crChar && c2 = lfChar then acc.reverse :: pySplitlinesAux rest []
    else if isPySplitBoundary c then acc.reverse :: pySplitlinesAux (c2 :: rest) []
    else pySplitlinesAux (c2 :: rest) (c :: acc)

/-- Python `str.splitlines()` (without keepends). -/
def pySplitlines (s : List Char) : List (List Char) := pySplitlinesAux s []

/-- Universal-newline translation performed by text-mode `open`:
`\r\n` and `\r` both become `\n` in the text that is read. -/
def univNl : List Char → List Char
  | [] => []
  | [c] => if c = crChar then [lfChar] else [c]
  | c :: c2 :: rest =>
    if c = crChar && c2 = lfChar then lfChar :: univNl rest
    else if c = crChar then lfChar :: univNl (c2 :: rest)
    else c :: univNl (c2 :: rest)

/-- Iterating a text-mode file yields its lines with the trailing `\n` kept
(applied after `univNl`, so `\n` is the only newline). -/
def fileLines : List Char → List (List Char) :=
  go []
where
  go : List Char → List Char → List (List Char)
    | acc, [] => if acc.isEmpty then [] else [acc.reverse]
    | acc, c :: rest =>
      if c = lfChar then (c :: acc).reverse :: go [] rest
      else go (c :: acc) rest

/-- Python `str.split(sep)` for a single-character separator (keeps empties). -/
def splitChAux (sep : Char) : List Char → List Char → List (List Char)
  | [], acc => [acc.reverse]
  | c :: rest, acc =>
    if c = sep then acc.reverse :: splitChAux sep rest [] else splitChAux sep rest (c :: acc)

def splitCh (sep : Char) (s : List Char) : List (List Char) := splitChAux sep s []

/-- Embeds `posixpath.join(a, b)` for two components. -/
def pyJoin (a b : List Char) : List Char :=
  if b.head? = some '/' then b
  else if a = [] || a.getLast? = some '/' then a ++ b
  else a ++ '/' :: b

/-- Embeds `posixpath.normpath`. -/
def pyNormpath (p : List Char) : List Char :=
  if p = [] then ['.']
  else
    let initialSlashes : Nat :=
      if p.head? = some '/' then
        if ['/', '/'].isPrefixOf p && !(['/', '/', '/'].isPrefixOf p) then 2 else 1
      else 0
    let comps := splitCh '/' p
    let newComps := comps.foldl
      (fun acc comp =>
        if comp = [] || comp = ['.'] then acc
        else if comp ≠ ['.', '.'] || (initialSlashes = 0 && acc.isEmpty)
            || (acc.getLast? = some ['.', '.']) then acc ++ [comp]
        else acc.dropLast)
      []
    let joined := List.intercalate ['/'] newComps
    let path := List.replicate initialSlashes '/' ++ joined
    if path = [] then ['.'] else path

/-- Index of the last occurrence of `c` in `s` (`str.rfind` for one character). -/
def pyRfind (s : List Char) (c : Char) : Option Nat :=
  ((List.range s.length).filter (fun i => s.get? i = some c)).getLast?

/-- Embeds `posixpath.dirname`. -/
def pyDirname (p : List Char) : List Char :=
  let i := ((pyRfind p '/').map (· + 1)).getD 0
  let head := p.take i
  if head ≠ [] && !head.all (· = '/') then (head.reverse.dropWhile (· = '/')).reverse
  else head

/-! ### `token.py`: `TokenKind`, keyword/punctuator tables, `Token`, `CharSets` -/

/-- The `TokenKind` enumeration of `token.py`.  Note that the tokenizer also
refers to a member `ESCAPED_NL`, but no such member is declared in `token.py`;
that attribute access raises `AttributeError` at runtime and is therefore
modelled as an error, not as a constructor here. -/
inductive TokenKind where
  | NL | COMMENT | WS
  | AUTO | BREAK | CASE | CHAR | CONST | CONTINUE | DEFAULT | DO | DOUBLE | ELSE
  | ENUM | EXTERN | FLOAT | FOR | GOTO | IF | INLINE | INT | LONG | REGISTER
  | RESTRICT | RETURN | SHORT | SIGNED | SIZEOF | STATIC | STRUCT | SWITCH
  | TYPEDEF | UNION | UNSIGNED | VOID | VOLATILE | WHILE | INT128__
  | ALIGNAS_ | ALIGNOF_ | ATOMIC_ | BOOL_ | COMPLEX_ | GENERIC_ | IMAGINARY_
  | NORETURN_ | PRAGMA_ | STATIC_ASSERT_ | THREAD_LOCAL_
  | ID
  | TYPE_ID
  | INT_CONST_DEC | INT_CONST_OCT | INT_CONST_HEX | INT_CONST_BIN | INT_CONST_CHAR
  | FLOAT_CONST | HEX_FLOAT_CONST
  | CHAR_CONST | WCHAR_CONST | U8CHAR_CONST | U16CHAR_CONST | U32CHAR_CONST
  | STRING_LITERAL | WSTRING_LITERAL | U8STRING_LITERAL | U16STRING_LITERAL | U32STRING_LITERAL
  | PLUS | MINUS | TIMES | DIVIDE | MOD | OR | AND | NOT | XOR | LSHIFT | RSHIFT
  | LOR | LAND | LNOT | LT | GT | LE | GE | EQ | NE
  | EQUALS | TIMESEQUAL | DIVEQUAL | MODEQUAL | PLUSEQUAL | MINUSEQUAL
  | LSHIFTEQUAL | RSHIFTEQUAL | ANDEQUAL | OREQUAL | XOREQUAL
  | PLUSPLUS | MINUSMINUS
  | ARROW
  | CONDOP
  | LPAREN | RPAREN | LBRACKET | RBRACKET | COMMA | PERIOD | SEMICOLON | COLON
  | LBRACE | RBRACE
  | ELLIPSIS
  | PP_NUM | PP_OCTO | PP_OCTOOCTO
  | PP_PRAGMA | PP_PRAGMASTR
deriving DecidableEq, Repr

/-- Embeds `_KEYWORD_TOKEN_MAP` from `token.py`. -/
def KEYWORD_TOKEN_MAP : List (String × TokenKind) :=
  [("auto", .AUTO), ("break", .BREAK), ("case", .CASE), ("char", .CHAR),
   ("const", .CONST), ("continue", .CONTINUE), ("default", .DEFAULT), ("do", .DO),
   ("double", .DOUBLE), ("else", .ELSE), ("enum", .ENUM), ("extern", .EXTERN),
   ("float", .FLOAT), ("for", .FOR), ("goto", .GOTO), ("if", .IF),
   ("inline", .INLINE), ("int", .INT), ("long", .LONG), ("register", .REGISTER),
   ("restrict", .RESTRICT), ("return", .RETURN), ("short", .SHORT),
   ("signed", .SIGNED), ("sizeof", .SIZEOF), ("static", .STATIC),
   ("struct", .STRUCT), ("switch", .SWITCH), ("typedef", .TYPEDEF),
   ("union", .UNION), ("unsigned", .UNSIGNED), ("void", .VOID),
   ("volatile", .VOLATILE), ("while", .WHILE), ("__int128", .INT128__),
   ("_Alignas", .ALIGNAS_), ("_Alignof", .ALIGNOF_), ("_Atomic", .ATOMIC_),
   ("_Bool", .BOOL_), ("_Complex", .COMPLEX_), ("_Generic", .GENERIC_),
   ("_Imaginary", .IMAGINARY_), ("_Noreturn", .NORETURN_), ("_Pragma", .PRAGMA_),
   ("_Static_assert", .STATIC_ASSERT_), ("_Thread_local", .THREAD_LOCAL_)]

/-- Embeds `_PUNCTUATION_TOKEN_MAP` from `token.py` (in source order). -/
def PUNCTUATION_TOKEN_MAP : List (String × TokenKind) :=
  [("+", .PLUS), ("-", .MINUS), ("*", .TIMES), ("/", .DIVIDE), ("%", .MOD),
   ("|", .OR), ("&", .AND), ("~", .NOT), ("^", .XOR), ("<<", .LSHIFT),
   (">>", .RSHIFT), ("||", .LOR), ("&&", .LAND), ("!", .LNOT), ("<", .LT),
   (">", .GT), ("<=", .LE), (">=", .GE), ("==", .EQ), ("!=", .NE),
   ("=", .EQUALS), ("*=", .TIMESEQUAL), ("/=", .DIVEQUAL), ("%=", .MODEQUAL),
   ("+=", .PLUSEQUAL), ("-=", .MINUSEQUAL), ("<<=", .LSHIFTEQUAL),
   (">>=", .RSHIFTEQUAL), ("&=", .ANDEQUAL), ("|=", .OREQUAL), ("^=", .XOREQUAL),
   ("++", .PLUSPLUS), ("--", .MINUSMINUS), ("->", .ARROW), ("?", .CONDOP),
   ("(", .LPAREN), (")", .RPAREN), ("[", .LBRACKET), ("]", .RBRACKET),
   (",", .COMMA), (".", .PERIOD), (";", .SEMICOLON), (":", .COLON),
   ("\x7b", .LBRACE), ("\x7d", .RBRACE), ("#", .PP_OCTO), ("##", .PP_OCTOOCTO)]

/-- Embeds `TokenKind.from_keyword` (`ValueError` on a miss is modelled as `none`). -/
def fromKeyword (s : List Char) : Option TokenKind :=
  (KEYWORD_TOKEN_MAP.find? (fun p => decide (p.1.toList = s))).map (·.2)

/-- Embeds `TokenKind.from_punctuator` (`ValueError` on a miss is modelled as `none`). -/
def fromPunctuator (s : List Char) : Option TokenKind :=
  (PUNCTUATION_TOKEN_MAP.find? (fun p => decide (p.1.toList = s))).map (·.2)

/-- The `Token` container of `token.py`. -/
structure Token where
  kind : TokenKind
  value : List Char
  lineno : Nat
  col_offset : Nat
  end_col_offset : Nat
  filename : List Char
deriving DecidableEq, Repr

/-! `CharSets` from `token.py`. -/

/-- Embeds `CharSets.non_nl_whitespace`. -/
def nonNlWhitespace (c : Char) : Bool := c = spChar || c = tabChar

/-- Embeds `CharSets.ascii_letters` membership. -/
def isAsciiLetterChar (c : Char) : Bool :=
  (97 ≤ c.toNat && c.toNat ≤ 122) || (65 ≤ c.toNat && c.toNat ≤ 90)

/-- Embeds `CharSets.digits` membership. -/
def isDigitChar (c : Char) : Bool := 48 ≤ c.toNat && c.toNat ≤ 57

/-- Embeds `CharSets.alphanumeric` membership. -/
def isAlnumChar (c : Char) : Bool := isAsciiLetterChar c || isDigitChar c

/-- Embeds `CharSets.punctuation1`, the string
of ASCII punctuation characters, given by code point. -/
def punctuation1 : List Char :=
  [33, 34, 35, 36, 37, 38, 39, 40, 41, 42, 43, 44, 45, 46, 47,
   58, 59, 60, 61, 62, 63, 64, 91, 92, 93, 94, 95, 96, 123, 124, 125, 126].map Char.ofNat

/-- Embeds `CharSets.punctuation2`: the two-character keys of the punctuator table. -/
def punctuation2 : List (List Char) :=
  (PUNCTUATION_TOKEN_MAP.filter (fun p => p.1.length = 2)).map (fun p => p.1.toList)

/-- Embeds `CharSets.punctuation3`: the three-character keys of the punctuator table. -/
def punctuation3 : List (List Char) :=
  (PUNCTUATION_TOKEN_MAP.filter (fun p => p.1.length = 3)).map (fun p => p.1.toList)

/-- Embeds `CharSets._identifier_start_ranges`, as inclusive code-point ranges. -/
def identifierStartRanges : List (Nat × Nat) :=
  [(0xb2, 0xb5), (0xb7, 0xba), (0xbc, 0xbe), (0xc0, 0xd6), (0xd8, 0xf6),
   (0xf8, 0xff), (0x100, 0x2ff), (0x370, 0x167f), (0x1681, 0x180d),
   (0x180f, 0x1dbf), (0x1e00, 0x1fff), (0x200b, 0x200d), (0x202a, 0x202e),
   (0x203f, 0x2040), (0x2054, 0x2054), (0x2060, 0x206f), (0x2070, 0x20cf),
   (0x2100, 0x218f), (0x2460, 0x24ff), (0x2776, 0x2793), (0x2c00, 0x2dff),
   (0x2e80, 0x2fff), (0x3004, 0x3007), (0x3021, 0x302f), (0x3031, 0x303f),
   (0x3040, 0xd7ff), (0xf900, 0xfd3d), (0xfd40, 0xfdcf), (0xfdf0, 0xfe1f),
   (0xfe30, 0xfe44), (0xfe47, 0xfffd), (0x10000, 0x1fffd), (0x20000, 0x2fffd),
   (0x30000, 0x3fffd), (0x40000, 0x4fffd), (0x50000, 0x5fffd),
   (0x60000, 0x6fffd), (0x70000, 0x7fffd), (0x80000, 0x8fffd),
   (0x90000, 0x9fffd), (0xa0000, 0xafffd), (0xb0000, 0xbfffd),
   (0xc0000, 0xcfffd), (0xd0000, 0xdfffd), (0xe0000, 0xefffd)]

/-- Embeds `CharSets.can_start_identifier`. -/
def canStartIdentifier (c : Char) : Bool :=
  isAsciiLetterChar c
  || c = '_' || c = '$' || c.toNat = 0xa8 || c.toNat = 0xaa || c.toNat = 0xad || c.toNat = 0xaf
  || identifierStartRanges.any (fun p => p.1 ≤ c.toNat && c.toNat ≤ p.2)

/-- Embeds `CharSets._extra_identifier_end_ranges`. -/
def extraIdentifierEndRanges : List (Nat × Nat) :=
  [(0x300, 0x36f), (0x1dc0, 0x1dff), (0x20d0, 0x20ff), (0xfe20, 0xfe2f)]

/-- Embeds `CharSets.can_end_identifier`. -/
def canEndIdentifier (c : Char) : Bool :=
  canStartIdentifier c || isDigitChar c
  || extraIdentifierEndRanges.any (fun p => p.1 ≤ c.toNat && c.toNat ≤ p.2)

/-! ### Python exceptions -/

/-- The exceptions the embedded code can raise.
`syntaxErr` is `PycpSyntaxError` with its location payload
`(filename, line_text, lineno, col_offset, end_col_offset)`;
`indexError` is a string-index-out-of-range `IndexError`;
`attributeError` is the `AttributeError` raised by evaluating the nonexistent
`TokenKind.ESCAPED_NL`; `stopIteration` is a bare `next()` on an exhausted
iterator; `ioError` is `OSError` from `open`; `notImplemented` is
`NotImplementedError`; `fuelOut` is a model artifact (recursion budget of the
embedding exhausted), not a Python exception. -/
inductive PyErr where
  | syntaxErr (msg : String) (filename lineText : List Char) (lineno colOff endColOff : Nat)
  | indexError
  | attributeError
  | stopIteration
  | ioError (filename : List Char)
  | notImplemented
  | fuelOut
deriving DecidableEq, Repr

deriving instance DecidableEq for Except

/-! ### `tokenizer.py`: the `Tokenizer` -/

/-- The mutable state of a `Tokenizer` (`self.end` is `source.length` and is
not stored separately; `_current_line_start` is `currentLineStart`). -/
structure TokState where
  source : List Char
  filename : List Char
  previous : Nat
  current : Nat
  lineno : Nat
  currentLineStart : Nat
deriving DecidableEq, Repr

/-- Embeds `Tokenizer.__init__`. -/
def initTok (source filename : List Char) : TokState :=
  { source := source, filename := filename, previous := 0, current := 0,
    lineno := 1, currentLineStart := 0 }

/-- Embeds `Tokenizer._get_current_location` followed by constructing
`PycpSyntaxError(msg, location)`; the list indexing
`source.splitlines()[lineno - 1]` can itself raise `IndexError`.
`curNow` is the value of `self.current` at the raise site. -/
def mkLocErr (st : TokState) (curNow : Nat) (msg : String) : PyErr :=
  match (pySplitlines st.source).get? (st.lineno - 1) with
  | none => .indexError
  | some lineText =>
      .syntaxErr msg st.filename lineText st.lineno
        (st.previous - st.currentLineStart) (curNow - st.currentLineStart)

/-- Embeds `Tokenizer.line_comment`: returns the new `self.current`.
Python takes `min` of the found `\r` index, found `\n` index and `self.end`,
skipping `-1` (absent) results; with absent results defaulted to the length the
value is the same because every found index is below the length. -/
def pyLineComment (src : List Char) (cur : Nat) : Nat :=
  Nat.min ((pyFind src [crChar] (cur + 2)).getD src.length)
    (Nat.min ((pyFind src [lfChar] (cur + 2)).getD src.length) src.length)

/-- Embeds `Tokenizer.block_comment`. -/
def pyBlockComment (st : TokState) (cur : Nat) : Except PyErr Nat :=
  match pyFind st.source ['*', '/'] (cur + 2) with
  | none => .error (mkLocErr st (cur + 2) "Unclosed block comment.")
  | some e => .ok (e + 2)

/-- Embeds `Tokenizer.newline`: reads `self.curr_char` (which raises `IndexError`
when `self.current` has reached the end of the source) up to twice. -/
def pyNewlineStep (src : List Char) (cur : Nat) : Except PyErr Nat :=
  match src.get? cur with
  | none => .error .indexError
  | some c0 =>
    let cur1 := if c0 = crChar then cur + 1 else cur
    match src.get? cur1 with
    | none => .error .indexError
    | some c1 => .ok (if c1 = lfChar then cur1 + 1 else cur1)

/-- Embeds `Tokenizer.escaped_newline`: advances past the backslash, runs `newline`,
then evaluates `TokenKind.ESCAPED_NL` — a member `token.py` never declares —
so when `newline` does not raise, this raises `AttributeError`. -/
def pyEscapedNewline (src : List Char) (cur : Nat) : Except PyErr (TokenKind × Nat) :=
  match pyNewlineStep src (cur + 1) with
  | .error e => .error e
  | .ok _ => .error .attributeError

/-- Embeds `Tokenizer.whitespace`. -/
def pyWhitespace (src : List Char) (cur : Nat) : Nat :=
  (firstIdxFrom src (cur + 1) (fun c => !nonNlWhitespace c)).getD (cur + 1)

/-- The scanning loop of `Tokenizer.numeric_literal` (the `while` guard
`current < end` and the `curr_char` read are combined into the `get?`).  The
first argument is a recursion budget; every iteration advances the cursor by
at least one while it stays below the length, so the budget supplied by
`pyNumScan` is never exhausted. -/
def pyNumScanF (src : List Char) : Nat → Nat → Nat
  | 0, cur => cur
  | fuel + 1, cur =>
    match src.get? cur with
    | none => cur
    | some c =>
      if (c = 'e' || c = 'E' || c = 'p' || c = 'P')
          && ((src.get? (cur + 1)).map (fun d => d = '+' || d = '-')).getD false then
        pyNumScanF src fuel (cur + 2)
      else if isAlnumChar c || c = '.' then
        pyNumScanF src fuel (cur + 1)
      else cur

def pyNumScan (src : List Char) (cur : Nat) : Nat :=
  pyNumScanF src (src.length + 1) cur

/-- Embeds `Tokenizer.identifier`: scan only (the returned kind is always `ID`). -/
def pyIdentifierScan (src : List Char) (cur : Nat) : Nat :=
  (firstIdxFrom src (cur + 1) (fun c => !canEndIdentifier c)).getD (cur + 1)

/-- The cursor advance of `Tokenizer.punctuation`: longest match first among
the three- then two-character punctuators, else one character. -/
def pyPunctAdvance (st : TokState) (cur : Nat) : Nat :=
  if pyStartsWithAny st.source punctuation3 cur then cur + 3
  else if pyStartsWithAny st.source punctuation2 cur then cur + 2
  else cur + 1

/-- Embeds `Tokenizer.punctuation`. -/
def pyPunctuation (st : TokState) (cur : Nat) : Except PyErr (TokenKind × Nat) :=
  match fromPunctuator (pySlice st.source st.previous (pyPunctAdvance st cur)) with
  | some k => .ok (k, pyPunctAdvance st cur)
  | none => .error (mkLocErr st (pyPunctAdvance st cur) "Invalid punctuation.")

/-- The quote-search loop of `Tokenizer._find_quote_end`: find the next
occurrence of the quote character; when the single character immediately
before it is a backslash, keep searching past it; otherwise stop just after
it.  `none` means the `ValueError` of `str.index` (quote never found).  The
first `Nat` is a recursion budget; every iteration moves the search position
past a found quote below the length, so the budget supplied by
`pyFindQuoteLoop` is never exhausted. -/
def pyFindQuoteLoopF (src : List Char) (qc : Char) : Nat → Nat → Option Nat
  | 0, _ => none
  | fuel + 1, qe =>
    match pyFind src [qc] qe with
    | none => none
    | some e =>
        if src.get? (e - 1) = some bsChar then pyFindQuoteLoopF src qc fuel (e + 1)
        else some (e + 1)

def pyFindQuoteLoop (src : List Char) (qc : Char) (qe : Nat) : Option Nat :=
  pyFindQuoteLoopF src qc (src.length + 1) qe

/-- The unescaped-newline check of `Tokenizer._find_quote_end` over the
half-open index range `[a, b)`. -/
def pyHasUnescapedNl (src : List Char) (a b : Nat) : Bool :=
  (List.range src.length).any (fun i =>
    decide (a ≤ i) && decide (i < b) &&
    ((src.get? i = some crChar && !(src.get? (i - 1) = some bsChar)) ||
     (src.get? i = some lfChar
        && !(src.get? (i - 1) = some bsChar || src.get? (i - 1) = some crChar))))

/-- The `f"Unclosed {quote_type}."` message of `_find_quote_end`. -/
def unclosedMsg (qc : Char) : String :=
  "Unclosed " ++ (if qc = sqChar then "char const" else "string literal") ++ "."

/-- Embeds `Tokenizer._find_quote_end` (the index points at the opening quote;
returns the new `self.current`). -/
def pyFindQuoteEnd (st : TokState) (cur : Nat) : Except PyErr Nat :=
  match st.source.get? cur with
  | none => .error .indexError
  | some qc =>
    match pyFindQuoteLoop st.source qc (cur + 1) with
    | none => .error (mkLocErr st cur (unclosedMsg qc))
    | some newCur =>
        if pyHasUnescapedNl st.source cur newCur then
          .error (mkLocErr st newCur (unclosedMsg qc))
        else .ok newCur

/-- Embeds `Tokenizer.string_literal` (the dispatch guard guarantees the reads used
by the prefix test are in bounds). -/
def pyStringLiteral (st : TokState) (cur : Nat) : Except PyErr Nat :=
  if pyStartsWith st.source ['u', '8'] cur then pyFindQuoteEnd st (cur + 2)
  else if ((st.source.get? cur).map (fun c => c = 'u' || c = 'L' || c = 'W')).getD false then
    pyFindQuoteEnd st (cur + 1)
  else pyFindQuoteEnd st cur

/-- Embeds `Tokenizer.char_const`. -/
def pyCharConst (st : TokState) (cur : Nat) : Except PyErr Nat :=
  if ((st.source.get? cur).map (fun c => c = 'u' || c = 'L' || c = 'U')).getD false then
    pyFindQuoteEnd st (cur + 1)
  else pyFindQuoteEnd st cur

/-- Embeds `str.isdecimal`, modelled on the ASCII digits; the full Unicode `Nd`
category table is external to this repository. -/
def pyIsDecimal (c : Char) : Bool := isDigitChar c

/-- The string-literal openers `('"', 'u8"', 'u"', 'L"', 'W"')`. -/
def stringOpeners : List (List Char) :=
  [[dqChar], ['u', '8', dqChar], ['u', dqChar], ['L', dqChar], ['W', dqChar]]

/-- The char-literal openers `("'", "u'", "L'", "U'")`. -/
def charOpeners : List (List Char) :=
  [[sqChar], ['u', sqChar], ['L', sqChar], ['U', sqChar]]

/-- The dispatch of `Tokenizer.__next__` (assuming `current < end`, which the
caller checks): the chosen rule's handler result, i.e. the token kind and the
new `self.current`.  Character tests are written with `get?`; the dispatch
order guarantees each is in bounds exactly when Python's indexing is. -/
def tokDispatch (st : TokState) : Except PyErr (TokenKind × Nat) :=
  if pyStartsWith st.source ['/', '/'] st.current then
    .ok (.COMMENT, pyLineComment st.source st.current)
  else if pyStartsWith st.source ['/', '*'] st.current then
    (pyBlockComment st st.current).map (fun c2 => (.COMMENT, c2))
  else if pyStartsWith st.source [bsChar, crChar] st.current
      || pyStartsWith st.source [bsChar, lfChar] st.current then
    pyEscapedNewline st.source st.current
  else if st.source.get? st.current = some crChar || st.source.get? st.current = some lfChar then
    (pyNewlineStep st.source st.current).map (fun c2 => (.NL, c2))
  else if ((st.source.get? st.current).map nonNlWhitespace).getD false then
    .ok (.WS, pyWhitespace st.source st.current)
  else if ((st.source.get? st.current).map pyIsDecimal).getD false
      || (st.source.get? st.current = some '.'
          && ((st.source.get? (st.current + 1)).map pyIsDecimal).getD false) then
    .ok (.PP_NUM, pyNumScan st.source (st.current + 1))
  else if pyStartsWithAny st.source stringOpeners st.current then
    (pyStringLiteral st st.current).map (fun c2 => (.STRING_LITERAL, c2))
  else if pyStartsWithAny st.source charOpeners st.current then
    (pyCharConst st st.current).map (fun c2 => (.CHAR_CONST, c2))
  else if ((st.source.get? st.current).map canStartIdentifier).getD false then
    .ok (.ID, pyIdentifierScan st.source st.current)
  else if ((st.source.get? st.current).map (punctuation1.contains ·)).getD false then
    pyPunctuation st st.current
  else .error (mkLocErr st st.current "Invalid token.")

/-- Embeds `Tokenizer.__next__`: `ok none` is `StopIteration` (normal end of the
stream); otherwise the emitted `Token` and the updated tokenizer state. -/
def tokNext (st : TokState) : Except PyErr (Option (Token × TokState)) :=
  if st.current < st.source.length then
    match tokDispatch st with
    | .error e => .error e
    | .ok (k, cur2) =>
      let value := pySlice st.source st.previous cur2
      let tok : Token :=
        { kind := k, value := value, lineno := st.lineno,
          col_offset := st.previous - st.currentLineStart,
          end_col_offset := cur2 - st.currentLineStart, filename := st.filename }
      let st2 : TokState :=
        if k = TokenKind.NL then
          { st with previous := cur2, current := cur2, lineno := st.lineno + 1,
                    currentLineStart := cur2 }
        else { st with previous := cur2, current := cur2 }
      .ok (some (tok, st2))
  else .ok none

/-- Outcome of draining a `Tokenizer`. -/
inductive TokRun where
  | done (toks : List Token)
  | failed (e : PyErr)
  | fuelOut
deriving DecidableEq, Repr

/-- Fully drain a `Tokenizer`, with an explicit recursion budget. -/
def tokenizeAux : Nat → TokState → TokRun
  | 0, _ => .fuelOut
  | n + 1, st =>
    match tokNext st with
    | .error e => .failed e
    | .ok none => .done []
    | .ok (some (t, st2)) =>
      match tokenizeAux n st2 with
      | .done ts => .done (t :: ts)
      | r => r

/-! ### The file system and `errors.py` -/

/-- The file system, the only external resource: a finite map from paths to
raw file contents. -/
structure FS where
  files : List (List Char × List Char)
deriving DecidableEq, Repr

/-- Embeds `open(p).read()` (before universal-newline translation); `none` is the
`OSError` of a path that cannot be opened. -/
def FS.read (fs : FS) (p : List Char) : Option (List Char) :=
  (fs.files.find? (fun e => decide (e.1 = p))).map (·.2)

/-- Embeds `os.path.exists`. -/
def FS.pathExists (fs : FS) (p : List Char) : Bool := (fs.read p).isSome

/-- Embeds `PycpSyntaxError.from_token`: re-opens `token.filename` and scans it for
line number `token.lineno`.  A path that cannot be opened raises `OSError`;
a file with fewer than `lineno` lines exhausts the generator, so the bare
`next` raises `StopIteration`; otherwise the documented syntax error is built
from the token's location fields. -/
def fromToken (fs : FS) (msg : String) (t : Token) : PyErr :=
  match fs.read t.filename with
  | none => .ioError t.filename
  | some contents =>
    match (fileLines (univNl contents)).get? (t.lineno - 1) with
    | none => .stopIteration
    | some lineText =>
        .syntaxErr msg t.filename lineText t.lineno t.col_offset t.end_col_offset

/-! ### `preprocessor.py`: the `Preprocessor` -/

/-- An element of the preprocessor's upstream iterator chain: a plain buffered
token, a live `Tokenizer` being drained lazily, or the enter/exit effects of
the `_tokens_with_temp_local_dir` generator (set `local_dir` when the splice
starts, restore it when the spliced tokens are exhausted). -/
inductive PpItem where
  | tok (t : Token)
  | lexer (ts : TokState)
  | pushDir (d : List Char)
  | popDir
deriving DecidableEq, Repr

/-- The mutable state of a `Preprocessor`.  `dir_stack` holds the saved
`_orig_local_dir` values of active `_tokens_with_temp_local_dir` generators. -/
structure PpState where
  raw : List PpItem
  local_dir : List Char
  include_search_dirs : List (List Char)
  ignore_missing_includes : Bool
  macros : List (List Char)
  prev_tok : Option Token
  pragma_once_paths : List (List Char)
  include_guarded_paths : List (List Char)
  include_next_index : Nat
  dir_stack : List (List Char)
deriving DecidableEq, Repr

/-- Embeds `Preprocessor(Tokenizer(source, filename))` with the default
configuration (`local_dir = ""`, no search dirs, errors on missing includes). -/
def initPp (source filename : List Char) : PpState :=
  { raw := [.lexer (initTok source filename)], local_dir := [],
    include_search_dirs := [], ignore_missing_includes := false, macros := [],
    prev_tok := none, pragma_once_paths := [], include_guarded_paths := [],
    include_next_index := 0, dir_stack := [] }

/-- Embeds `_is_not_space`. -/
def isNotSpace (t : Token) : Bool := !(t.kind = .WS || t.kind = .COMMENT)

/-- Embeds `_is_pp_directive_hash`. -/
def isPpDirectiveHash (currTok : Token) (prevTok : Option Token) : Bool :=
  currTok.kind = .PP_OCTO &&
    (prevTok.isNone || ((prevTok.map (fun p => decide (p.kind = TokenKind.NL))).getD false))

/-- Embeds `Preprocessor._is_macro`. -/
def isMacroTok (st : PpState) (t : Token) : Bool :=
  t.kind = .ID && st.macros.contains t.value

/-- Embeds `Preprocessor._prepend`. -/
def ppPrepend (st : PpState) (items : List PpItem) : PpState :=
  { st with raw := items ++ st.raw }

/-- Worker for `next(self.raw_tokens)`, over the item list, the current
`local_dir` and the stack of saved directories. -/
def popRawAux :
    List PpItem → List Char → List (List Char) →
      Except PyErr (Option (Token × List PpItem × List Char × List (List Char)))
  | [], _, _ => .ok none
  | .tok t :: rest, ld, ds => .ok (some (t, rest, ld, ds))
  | .lexer ts :: rest, ld, ds =>
    match tokNext ts with
    | .error e => .error e
    | .ok none => popRawAux rest ld ds
    | .ok (some (t, ts2)) => .ok (some (t, .lexer ts2 :: rest, ld, ds))
  | .pushDir d :: rest, ld, ds => popRawAux rest d (ld :: ds)
  | .popDir :: rest, ld, ds =>
    match ds with
    | [] => popRawAux rest ld []
    | d :: ds2 => popRawAux rest d ds2

/-- Embeds `next(self.raw_tokens)`: pull one token from the iterator chain, running
marker effects and lazy tokenizers along the way.  `ok none` is an exhausted
stream; tokenizer errors surface here, exactly when the consumer pulls. -/
def popRaw (st : PpState) : Except PyErr (Option (Token × PpState)) :=
  match popRawAux st.raw st.local_dir st.dir_stack with
  | .error e => .error e
  | .ok none => .ok none
  | .ok (some (t, raw2, ld2, ds2)) =>
      .ok (some (t, { st with raw := raw2, local_dir := ld2, dir_stack := ds2 }))

/-- Embeds `next((t for t in self.raw_tokens if t.kind is TokenKind.NL), None)`:
scan forward consuming tokens until a newline token (also consumed). -/
def scanToNl : Nat → PpState → Except PyErr (Option Token × PpState)
  | 0, _ => .error .fuelOut
  | n + 1, st =>
    match popRaw st with
    | .error e => .error e
    | .ok none => .ok (none, st)
    | .ok (some (t, st2)) =>
        if t.kind = TokenKind.NL then .ok (some t, st2) else scanToNl n st2

/-- Embeds `Preprocessor._skip_rest_of_line` (the non-fatal "Extra tokens." warning
has no effect on the token stream and is not modelled). -/
def skipRestOfLine (fuel : Nat) (st : PpState) : Except PyErr PpState :=
  match popRaw st with
  | .error e => .error e
  | .ok none => .ok st
  | .ok (some (t, st2)) =>
    if t.kind = TokenKind.NL then .ok st2
    else
      match scanToNl fuel st2 with
      | .error e => .error e
      | .ok (none, st3) => .ok st3
      | .ok (some nlTok, st3) => .ok (ppPrepend st3 [.tok nlTok])

/-- Embeds `list(takewhile(lambda t: t.kind is not TokenKind.NL, self.raw_tokens))`:
collects the tokens before the next newline; `takewhile` also consumes (and
drops) the newline itself. -/
def takeUntilNl : Nat → PpState → Except PyErr (List Token × PpState)
  | 0, _ => .error .fuelOut
  | n + 1, st =>
    match popRaw st with
    | .error e => .error e
    | .ok none => .ok ([], st)
    | .ok (some (t, st2)) =>
      if t.kind = TokenKind.NL then .ok ([], st2)
      else
        match takeUntilNl n st2 with
        | .error e => .error e
        | .ok (ts, st3) => .ok (t :: ts, st3)

/-- The message of the `ExpectedClosingAngle` error. -/
def expectedClosingAngleMsg : String :=
  "Expected closing " ++ String.mk [sqChar, '>', sqChar] ++ " for #include."

/-- The message of the `CannotOpenInclude` error for a given path
(`f"Cannot open included file: {include_path!r}"`, with `repr` modelled for
paths without quotes or escapes). -/
def cannotOpenMsg (path : List Char) : String :=
  "Cannot open included file: " ++ String.mk [sqChar] ++ String.mk path ++ String.mk [sqChar]

/-- Embeds `Preprocessor._read_include_name`: the parsed include name, whether it was
quoted, and the state after consuming the directive line's tokens. -/
def readIncludeName (fs : FS) (fuel : Nat) (st : PpState) (nameStartTok : Token) :
    Except PyErr (List Char × Bool × PpState) :=
  if nameStartTok.kind = .STRING_LITERAL then
    match skipRestOfLine fuel st with
    | .error e => .error e
    | .ok st2 => .ok ((nameStartTok.value.drop 1).dropLast, true, st2)
  else if nameStartTok.kind = .LT then
    match takeUntilNl fuel st with
    | .error e => .error e
    | .ok (lineToks, st2) =>
      if (lineToks.getLast?.map Token.kind) = some TokenKind.GT then
        .ok (((lineToks.dropLast.map Token.value).flatten), false, st2)
      else .error (fromToken fs expectedClosingAngleMsg nameStartTok)
  else if isMacroTok st nameStartTok then .error .notImplemented
  else .error (fromToken fs "Expected filename after #include." nameStartTok)

/-- The search loop shared by `_find_include_path` and
`_find_include_next_path`: the first directory containing the name, with its
position in the searched list. -/
def findInDirs (fs : FS) (name : List Char) : List (List Char) → Nat → Option (List Char × Nat)
  | [], _ => none
  | d :: ds, i =>
    let candidate := pyNormpath (pyJoin d name)
    if fs.pathExists candidate then some (candidate, i) else findInDirs fs name ds (i + 1)

/-- Embeds `Preprocessor._find_include_path`. -/
def findIncludePath (fs : FS) (st : PpState) (name : List Char) (isQuoted : Bool) :
    List Char × PpState :=
  let searchDirs := if isQuoted then st.local_dir :: st.include_search_dirs
                    else st.include_search_dirs
  match findInDirs fs name searchDirs 0 with
  | some (c, i) => (c, { st with include_next_index := i + 1 })
  | none => (name, st)

/-- Embeds `Preprocessor._find_include_next_path`. -/
def findIncludeNextPath (fs : FS) (st : PpState) (name : List Char) : List Char :=
  match findInDirs fs name (st.include_search_dirs.drop st.include_next_index) 0 with
  | some (c, _) => c
  | none => name

/-- The body of the `_tokens_with_temp_local_dir(include_path, include_source)`
generator, as iterator items: set `local_dir` to the directory of its
`include_path` argument, lazily yield `Tokenizer(include_source, include_path)`,
then restore `local_dir`. -/
def tokensWithTempLocalDir (include_path include_source : List Char) : List PpItem :=
  [.pushDir (pyDirname include_path), .lexer (initTok include_source include_path), .popDir]

/-- Embeds `Preprocessor._include_file`.  Note the call site passes
`self._tokens_with_temp_local_dir(include_source, include_path)` — the
arguments in the opposite order to that generator's parameters. -/
def includeFile (fs : FS) (st : PpState) (include_path : List Char) (start_tok : Token) :
    Except PyErr PpState :=
  if include_path ∈ st.pragma_once_paths ∨ include_path ∈ st.include_guarded_paths then .ok st
  else
    match fs.read include_path with
    | none =>
      if !st.ignore_missing_includes then
        .error (fromToken fs (cannotOpenMsg include_path) start_tok)
      else .ok st
    | some contents =>
      let include_source := univNl contents
      .ok (ppPrepend st (tokensWithTempLocalDir include_source include_path))

/-! ### One call of `Preprocessor.__next__`

`__next__` is written `for self.curr_tok in self.raw_tokens: ...`.  The
`for` statement evaluates `iter(self.raw_tokens)` once, so the loop holds the
iterator object `self.raw_tokens` referred to *at the start of the call*;
when a directive handler rebinds the attribute — `_prepend` sets
`self.raw_tokens = chain(items, old)`, `_peek` sets it to a `tee` branch —
the ongoing loop keeps pulling the old object and never sees the rebinding.
The state of one call is therefore a pair of item lists:

* `shared` — what remains of the frozen iterator the `for` loop drains; and
* `pending` — the items the *attribute* `self.raw_tokens` holds in front of
  that frozen iterator (prepended splices, `tee`-buffered peeked tokens).

The attribute is `pending ++ shared`: handler pulls (`next(self.raw_tokens)`)
drain `pending` first and then fall through to the same `shared` object the
loop drains; `_prepend` pushes onto `pending`; the loop's own pulls take from
`shared` directly, bypassing `pending`.  When the call ends, the attribute
`pending ++ shared` is what the next call will freeze. -/

/-- Pull one token from an iterator-chain item list, returning the remaining
items and the updated `local_dir`/`dir_stack` even when the list is
exhausted (marker effects of drained generators still apply). -/
def popIter :
    List PpItem → List Char → List (List Char) →
      Except PyErr (Option Token × List PpItem × List Char × List (List Char))
  | [], ld, ds => .ok (none, [], ld, ds)
  | .tok t :: rest, ld, ds => .ok (some t, rest, ld, ds)
  | .lexer ts :: rest, ld, ds =>
    match tokNext ts with
    | .error e => .error e
    | .ok none => popIter rest ld ds
    | .ok (some (t, ts2)) => .ok (some t, .lexer ts2 :: rest, ld, ds)
  | .pushDir d :: rest, ld, ds => popIter rest d (ld :: ds)
  | .popDir :: rest, ld, ds =>
    match ds with
    | [] => popIter rest ld []
    | d :: ds2 => popIter rest d ds2

/-- The state during one `Preprocessor.__next__` call (see the section
comment): the non-iterator attributes of the `Preprocessor` plus the
`pending`/`shared` split of the iterator chain. -/
structure PpCall where
  pending : List PpItem
  shared : List PpItem
  local_dir : List Char
  include_search_dirs : List (List Char)
  ignore_missing_includes : Bool
  macros : List (List Char)
  prev_tok : Option Token
  pragma_once_paths : List (List Char)
  include_guarded_paths : List (List Char)
  include_next_index : Nat
  dir_stack : List (List Char)
deriving DecidableEq, Repr

/-- Entering `__next__`: the `for` loop freezes `iter(self.raw_tokens)`, so
the whole current attribute becomes `shared` and nothing is pending. -/
def PpState.beginCall (st : PpState) : PpCall :=
  { pending := [], shared := st.raw, local_dir := st.local_dir,
    include_search_dirs := st.include_search_dirs,
    ignore_missing_includes := st.ignore_missing_includes, macros := st.macros,
    prev_tok := st.prev_tok, pragma_once_paths := st.pragma_once_paths,
    include_guarded_paths := st.include_guarded_paths,
    include_next_index := st.include_next_index, dir_stack := st.dir_stack }

/-- Leaving `__next__`: the attribute `self.raw_tokens` is the chain
`pending ++ shared`, which the next call will freeze. -/
def PpCall.endCall (c : PpCall) : PpState :=
  { raw := c.pending ++ c.shared, local_dir := c.local_dir,
    include_search_dirs := c.include_search_dirs,
    ignore_missing_includes := c.ignore_missing_includes, macros := c.macros,
    prev_tok := c.prev_tok, pragma_once_paths := c.pragma_once_paths,
    include_guarded_paths := c.include_guarded_paths,
    include_next_index := c.include_next_index, dir_stack := c.dir_stack }

/-- The `for` loop's own pull: from the frozen iterator (`shared`) only. -/
def PpCall.pullFrozen (c : PpCall) : Except PyErr (Option Token × PpCall) :=
  match popIter c.shared c.local_dir c.dir_stack with
  | .error e => .error e
  | .ok (ot, shared2, ld2, ds2) =>
      .ok (ot, { c with shared := shared2, local_dir := ld2, dir_stack := ds2 })

/-- A handler's pull, `next(self.raw_tokens)`: from the live attribute —
`pending` first, falling through to `shared`. -/
def PpCall.pullAttr (c : PpCall) : Except PyErr (Option Token × PpCall) :=
  match popIter c.pending c.local_dir c.dir_stack with
  | .error e => .error e
  | .ok (some t, pending2, ld2, ds2) =>
      .ok (some t, { c with pending := pending2, local_dir := ld2, dir_stack := ds2 })
  | .ok (none, _, ld2, ds2) =>
    match popIter c.shared ld2 ds2 with
    | .error e => .error e
    | .ok (ot, shared2, ld3, ds3) =>
        .ok (ot, { c with pending := [], shared := shared2, local_dir := ld3,
                          dir_stack := ds3 })

/-- Embeds `Preprocessor._prepend` during a call: the rebinding
`self.raw_tokens = chain(items, old)` puts the items in front of the
attribute, invisible to the frozen loop. -/
def PpCall.prepend (c : PpCall) (items : List PpItem) : PpCall :=
  { c with pending := items ++ c.pending }

/-- Embeds `Preprocessor._is_macro` during a call. -/
def isMacroTokC (c : PpCall) (t : Token) : Bool :=
  t.kind = .ID && c.macros.contains t.value

/-- Embeds `next(filter(_is_not_space, self.raw_tokens), None)` during a
call (attribute pulls). -/
def popFilteredC : Nat → PpCall → Except PyErr (Option (Token × PpCall))
  | 0, _ => .error .fuelOut
  | n + 1, c =>
    match c.pullAttr with
    | .error e => .error e
    | .ok (none, _) => .ok none
    | .ok (some t, c2) =>
        if isNotSpace t then .ok (some (t, c2)) else popFilteredC n c2

/-- Worker for `PpCall`-level `_peek`: pull through the filter collecting
every pulled token (the `tee` buffer), in order. -/
def ppPeekAuxC : Nat → PpCall → List Token → Except PyErr (Option Token × List Token × PpCall)
  | 0, _, _ => .error .fuelOut
  | n + 1, c, acc =>
    match c.pullAttr with
    | .error e => .error e
    | .ok (none, c2) => .ok (none, acc.reverse, c2)
    | .ok (some t, c2) =>
        if isNotSpace t then .ok (some t, (t :: acc).reverse, c2)
        else ppPeekAuxC n c2 (t :: acc)

/-- Embeds `Preprocessor._peek(skip_spaces=True)` during a call:
`self.raw_tokens, forked = tee(self.raw_tokens)` rebinds the attribute to a
`tee` branch and `next(filter(_is_not_space, forked), None)` advances the
shared source, buffering every pulled token for the attribute branch.  So
the peeked tokens end up in front of the attribute (`pending`) — and,
having been pulled from the frozen iterator, are no longer seen by the
ongoing `for` loop. -/
def ppPeekC (fuel : Nat) (c : PpCall) : Except PyErr (Option Token × PpCall) :=
  match ppPeekAuxC fuel c [] with
  | .error e => .error e
  | .ok (ot, buffered, c2) =>
      .ok (ot, { c2 with pending := buffered.map .tok ++ c2.pending })

/-- Embeds `next((t for t in self.raw_tokens if t.kind is TokenKind.NL), None)`
during a call (attribute pulls). -/
def scanToNlC : Nat → PpCall → Except PyErr (Option Token × PpCall)
  | 0, _ => .error .fuelOut
  | n + 1, c =>
    match c.pullAttr with
    | .error e => .error e
    | .ok (none, c2) => .ok (none, c2)
    | .ok (some t, c2) =>
        if t.kind = TokenKind.NL then .ok (some t, c2) else scanToNlC n c2

/-- Embeds `Preprocessor._skip_rest_of_line` during a call (the non-fatal
"Extra tokens." warning has no effect on the token stream). -/
def skipRestOfLineC (fuel : Nat) (c : PpCall) : Except PyErr PpCall :=
  match c.pullAttr with
  | .error e => .error e
  | .ok (none, c2) => .ok c2
  | .ok (some t, c2) =>
    if t.kind = TokenKind.NL then .ok c2
    else
      match scanToNlC fuel c2 with
      | .error e => .error e
      | .ok (none, c3) => .ok c3
      | .ok (some nlTok, c3) => .ok (c3.prepend [.tok nlTok])

/-- Embeds `list(takewhile(lambda t: t.kind is not TokenKind.NL,
self.raw_tokens))` during a call (attribute pulls; the newline is consumed
and dropped). -/
def takeUntilNlC : Nat → PpCall → Except PyErr (List Token × PpCall)
  | 0, _ => .error .fuelOut
  | n + 1, c =>
    match c.pullAttr with
    | .error e => .error e
    | .ok (none, c2) => .ok ([], c2)
    | .ok (some t, c2) =>
      if t.kind = TokenKind.NL then .ok ([], c2)
      else
        match takeUntilNlC n c2 with
        | .error e => .error e
        | .ok (ts, c3) => .ok (t :: ts, c3)

/-- Embeds `Preprocessor._read_include_name` during a call: the same logic as
`readIncludeName`, with the pulls reading the live attribute. -/
def readIncludeNameC (fs : FS) (fuel : Nat) (c : PpCall) (nameStartTok : Token) :
    Except PyErr (List Char × Bool × PpCall) :=
  if nameStartTok.kind = .STRING_LITERAL then
    match skipRestOfLineC fuel c with
    | .error e => .error e
    | .ok c2 => .ok ((nameStartTok.value.drop 1).dropLast, true, c2)
  else if nameStartTok.kind = .LT then
    match takeUntilNlC fuel c with
    | .error e => .error e
    | .ok (lineToks, c2) =>
      if (lineToks.getLast?.map Token.kind) = some TokenKind.GT then
        .ok (((lineToks.dropLast.map Token.value).flatten), false, c2)
      else .error (fromToken fs expectedClosingAngleMsg nameStartTok)
  else if isMacroTokC c nameStartTok then .error .notImplemented
  else .error (fromToken fs "Expected filename after #include." nameStartTok)

/-- Embeds `Preprocessor._find_include_path` during a call. -/
def findIncludePathC (fs : FS) (c : PpCall) (name : List Char) (isQuoted : Bool) :
    List Char × PpCall :=
  let searchDirs := if isQuoted then c.local_dir :: c.include_search_dirs
                    else c.include_search_dirs
  match findInDirs fs name searchDirs 0 with
  | some (p, i) => (p, { c with include_next_index := i + 1 })
  | none => (name, c)

/-- Embeds `Preprocessor._find_include_next_path` during a call. -/
def findIncludeNextPathC (fs : FS) (c : PpCall) (name : List Char) : List Char :=
  match findInDirs fs name (c.include_search_dirs.drop c.include_next_index) 0 with
  | some (p, _) => p
  | none => name

/-- Embeds `Preprocessor._include_file` during a call: same logic as
`includeFile`, with the splice prepended to the attribute (`pending`). -/
def includeFileC (fs : FS) (c : PpCall) (include_path : List Char) (start_tok : Token) :
    Except PyErr PpCall :=
  if include_path ∈ c.pragma_once_paths ∨ include_path ∈ c.include_guarded_paths then .ok c
  else
    match fs.read include_path with
    | none =>
      if !c.ignore_missing_includes then
        .error (fromToken fs (cannotOpenMsg include_path) start_tok)
      else .ok c
    | some contents =>
      let include_source := univNl contents
      .ok (c.prepend (tokensWithTempLocalDir include_source include_path))

/-- Embeds `Preprocessor.pp_include` during a call. -/
def ppIncludeC (fs : FS) (fuel : Nat) (c : PpCall) : Except PyErr PpCall :=
  match popFilteredC fuel c with
  | .error e => .error e
  | .ok none => .error .stopIteration
  | .ok (some (nameTok, c1)) =>
    match readIncludeNameC fs fuel c1 nameTok with
    | .error e => .error e
    | .ok (name, quoted, c2) =>
      let (path, c3) := findIncludePathC fs c2 name quoted
      includeFileC fs c3 path nameTok

/-- Embeds `Preprocessor.pp_include_next` during a call. -/
def ppIncludeNextC (fs : FS) (fuel : Nat) (c : PpCall) : Except PyErr PpCall :=
  match popFilteredC fuel c with
  | .error e => .error e
  | .ok none => .error .stopIteration
  | .ok (some (nameTok, c1)) =>
    match readIncludeNameC fs fuel c1 nameTok with
    | .error e => .error e
    | .ok (name, _, c2) =>
      let path := findIncludeNextPathC fs c2 name
      includeFileC fs c2 path nameTok

/-- Embeds `Preprocessor.pp_pragma_once` during a call: records the filename
of the `once` token in the once-set, skips the line, and returns the
reassigned `self.curr_tok`. -/
def ppPragmaOnceC (fuel : Nat) (c : PpCall) : Except PyErr (PpCall × Token) :=
  match popFilteredC fuel c with
  | .error e => .error e
  | .ok none => .error .stopIteration
  | .ok (some (onceTok, c1)) =>
    let c2 :=
      if onceTok.filename ∈ c1.pragma_once_paths then c1
      else { c1 with pragma_once_paths := onceTok.filename :: c1.pragma_once_paths }
    match skipRestOfLineC fuel c2 with
    | .error e => .error e
    | .ok c3 => .ok (c3, onceTok)

/-- Embeds `Preprocessor.pp_pragma` during a call: skip to (and consume) the
next newline token, which becomes `self.curr_tok`; a bare `next` raises
`StopIteration` when no newline remains. -/
def ppPragmaC (fuel : Nat) (c : PpCall) : Except PyErr (PpCall × Token) :=
  match scanToNlC fuel c with
  | .error e => .error e
  | .ok (none, _) => .error .stopIteration
  | .ok (some nlTok, c2) => .ok (c2, nlTok)

/-- Embeds `Preprocessor.pp_error` during a call: unconditionally raise,
located at the token immediately following `error` (a bare `next` on the
attribute). -/
def ppErrorDirC (fs : FS) (c : PpCall) : Except PyErr PpCall :=
  match c.pullAttr with
  | .error e => .error e
  | .ok (none, _) => .error .stopIteration
  | .ok (some t, _) => .error (fromToken fs "Preprocessing error." t)

/-- Embeds `Preprocessor.pp_warning` during a call (the warning side channel
has no effect on the token stream; the peek's pulls and errors still
happen). -/
def ppWarningC (fuel : Nat) (c : PpCall) : Except PyErr PpCall :=
  match ppPeekC fuel c with
  | .error e => .error e
  | .ok (_, c1) => skipRestOfLineC fuel c1

/-- The directive dispatch of `Preprocessor.__next__`, given the already
consumed `#` token (`currTok`) and the directive-name token (`startTok`).
Returns the call state after the handler together with `self.curr_tok` as it
stands after the handler (the pragma handlers reassign it). -/
def dispatchDirectiveC (fs : FS) (fuel : Nat) (c : PpCall) (currTok startTok : Token) :
    Except PyErr (PpCall × Token) :=
  if startTok.kind = TokenKind.NL then .ok (c, currTok)
  else if startTok.value = "include".toList then
    (ppIncludeC fs fuel c).map (fun s => (s, currTok))
  else if startTok.value = "include_next".toList then
    (ppIncludeNextC fs fuel c).map (fun s => (s, currTok))
  else if startTok.value = "pragma".toList then
    match ppPeekC fuel c with
    | .error e => .error e
    | .ok (some t, c1) =>
        if t.value = "once".toList then ppPragmaOnceC fuel c1 else ppPragmaC fuel c1
    | .ok (none, c1) => ppPragmaC fuel c1
  else if startTok.value = "error".toList then
    (ppErrorDirC fs c).map (fun s => (s, currTok))
  else if startTok.value = "warning".toList then
    (ppWarningC fuel c).map (fun s => (s, currTok))
  else .error (fromToken fs "Invalid preprocessor directive." startTok)

/-- The `for self.curr_tok in self.raw_tokens:` loop of
`Preprocessor.__next__`: each iteration pulls from the frozen iterator;
directive handlers read and rebind the attribute; the call ends when a plain
token is returned or the frozen iterator is exhausted (`StopIteration`,
modelled as `none`). -/
def ppNextLoop (fs : FS) : Nat → PpCall → Except PyErr (Option Token × PpCall)
  | 0, _ => .error .fuelOut
  | n + 1, c =>
    match c.pullFrozen with
    | .error e => .error e
    | .ok (none, c1) => .ok (none, c1)
    | .ok (some currTok, c1) =>
      if isMacroTokC c1 currTok then .error .notImplemented
      else if isPpDirectiveHash currTok c1.prev_tok then
        match popFilteredC n c1 with
        | .error e => .error e
        | .ok none => .error (fromToken fs "Missing preprocessor directive." currTok)
        | .ok (some (startTok, c2)) =>
          match dispatchDirectiveC fs n c2 currTok startTok with
          | .error e => .error e
          | .ok (c3, newCurr) => ppNextLoop fs n { c3 with prev_tok := some newCurr }
      else if currTok.kind = .NL || currTok.kind = .WS || currTok.kind = .COMMENT then
        ppNextLoop fs n { c1 with prev_tok := some currTok }
      else .ok (some currTok, { c1 with prev_tok := some currTok })

/-- Embeds one call of `Preprocessor.__next__`: freeze the attribute, run the
loop, reassemble the attribute.  `ok (none, _)` is `StopIteration`. -/
def ppNext (fs : FS) (fuel : Nat) (st : PpState) : Except PyErr (Option Token × PpState) :=
  match ppNextLoop fs fuel st.beginCall with
  | .error e => .error e
  | .ok (ot, c) => .ok (ot, c.endCall)

/-- Fully drain a `Preprocessor` (iterating `Preprocessor.__next__` until
`StopIteration`).  A `StopIteration` escaping from inside `__next__` — e.g. a
bare `next` on an exhausted stream, or `from_token` scanning past the end of a
file — is seen by the consumer as a normal end of iteration, so it ends the
stream rather than failing. -/
def ppDrain (fs : FS) : Nat → PpState → Except PyErr (List Token)
  | 0, _ => .error .fuelOut
  | n + 1, st =>
    match ppNext fs n st with
    | .error e => if e = .stopIteration then .ok [] else .error e
    | .ok (none, _) => .ok []
    | .ok (some t, st2) =>
      match ppDrain fs n st2 with
      | .error e => .error e
      | .ok ts => .ok (t :: ts)

/-! ### Basic facts about the scanning helpers -/

theorem pyFind_spec (s sub : List Char) (start e : Nat) (h : pyFind s sub start = some e) :
    start ≤ e ∧ sub.isPrefixOf (s.drop e) = true := by
  have hm := List.find?_some h
  simp only [Bool.and_eq_true, decide_eq_true_eq] at hm
  exact hm

theorem pyFind_add_le (s sub : List Char) (start e : Nat) (hsub : sub ≠ [])
    (h : pyFind s sub start = some e) : e + sub.length ≤ s.length := by
  have hp := (pyFind_spec s sub start e h).2
  rw [List.isPrefixOf_iff_prefix] at hp
  have h1 := hp.length_le
  rw [List.length_drop] at h1
  have h2 : 0 < sub.length := List.length_pos.mpr hsub
  omega

theorem firstIdxFrom_ge (s : List Char) (start : Nat) (p : Char → Bool) (e : Nat)
    (h : firstIdxFrom s start p = some e) : start ≤ e := by
  have hm := List.find?_some h
  simp only [Bool.and_eq_true, decide_eq_true_eq] at hm
  exact hm.1

theorem pyStartsWith_bound (s p : List Char) (i : Nat) (hp : p ≠ [])
    (h : pyStartsWith s p i = true) : i + p.length ≤ s.length := by
  unfold pyStartsWith at h
  rw [List.isPrefixOf_iff_prefix] at h
  have h1 := h.length_le
  rw [List.length_drop] at h1
  have h2 : 0 < p.length := List.length_pos.mpr hp
  omega

theorem pyLineComment_ge (src : List Char) (cur : Nat) (h : cur + 2 ≤ src.length) :
    cur ≤ pyLineComment src cur := by
  unfold pyLineComment
  rw [Nat.le_min, Nat.le_min]
  have h1 : cur + 2 ≤ (pyFind src [crChar] (cur + 2)).getD src.length := by
    cases hf : pyFind src [crChar] (cur + 2) with
    | none => simpa using h
    | some e => simpa using (pyFind_spec _ _ _ _ hf).1
  have h2 : cur + 2 ≤ (pyFind src [lfChar] (cur + 2)).getD src.length := by
    cases hf : pyFind src [lfChar] (cur + 2) with
    | none => simpa using h
    | some e => simpa using (pyFind_spec _ _ _ _ hf).1
  refine ⟨by omega, by omega, by omega⟩

theorem pyBlockComment_ge (st : TokState) (cur cur2 : Nat)
    (h : pyBlockComment st cur = .ok cur2) : cur ≤ cur2 := by
  unfold pyBlockComment at h
  cases hf : pyFind st.source ['*', '/'] (cur + 2) with
  | none => rw [hf] at h; exact absurd h (by simp)
  | some e =>
    rw [hf] at h
    have := (pyFind_spec _ _ _ _ hf).1
    simp only [Except.ok.injEq] at h
    omega

theorem pyNewlineStep_ge (src : List Char) (cur cur2 : Nat)
    (h : pyNewlineStep src cur = .ok cur2) : cur ≤ cur2 ∧ cur2 ≤ cur + 2 := by
  unfold pyNewlineStep at h
  cases h0 : src.get? cur with
  | none => rw [h0] at h; exact absurd h (by simp)
  | some c0 =>
    rw [h0] at h
    by_cases hc0 : c0 = crChar <;> simp only [hc0, if_true, if_false, reduceIte] at h
    all_goals
      first
      | (cases h1 : src.get? (cur + 1) with
         | none => rw [h1] at h; exact absurd h (by simp)
         | some c1 =>
           rw [h1] at h
           simp only [Except.ok.injEq] at h
           split at h <;> omega)
      | (cases h1 : src.get? cur with
         | none => rw [h1] at h; exact absurd h (by simp)
         | some c1 =>
           rw [h1] at h
           simp only [Except.ok.injEq] at h
           split at h <;> omega)

theorem pyEscapedNewline_ne_ok (src : List Char) (cur : Nat) (r : TokenKind × Nat) :
    pyEscapedNewline src cur ≠ .ok r := by
  unfold pyEscapedNewline
  cases h : pyNewlineStep src (cur + 1) <;> simp

theorem pyWhitespace_ge (src : List Char) (cur : Nat) : cur ≤ pyWhitespace src cur := by
  unfold pyWhitespace
  cases hf : firstIdxFrom src (cur + 1) (fun c => !nonNlWhitespace c) with
  | none => simp only [Option.getD_none]; omega
  | some e =>
    have := firstIdxFrom_ge _ _ _ _ hf
    simp only [Option.getD_some]
    omega

theorem pyNumScanF_ge (src : List Char) :
    ∀ (fuel cur : Nat), cur ≤ pyNumScanF src fuel cur := by
  intro fuel
  induction fuel with
  | zero => intro cur; exact Nat.le_refl _
  | succ n ih =>
    intro cur
    rw [pyNumScanF]
    split
    · exact Nat.le_refl _
    · split_ifs
      · have := ih (cur + 2); omega
      · have := ih (cur + 1); omega
      · exact Nat.le_refl _

theorem pyNumScan_ge (src : List Char) (cur : Nat) : cur ≤ pyNumScan src cur :=
  pyNumScanF_ge src (src.length + 1) cur

theorem pyIdentifierScan_ge (src : List Char) (cur : Nat) : cur ≤ pyIdentifierScan src cur := by
  unfold pyIdentifierScan
  cases hf : firstIdxFrom src (cur + 1) (fun c => !canEndIdentifier c) with
  | none => simp only [Option.getD_none]; omega
  | some e =>
    have := firstIdxFrom_ge _ _ _ _ hf
    simp only [Option.getD_some]
    omega

theorem pyFindQuoteLoopF_ge (src : List Char) (qc : Char) :
    ∀ (fuel qe r : Nat), pyFindQuoteLoopF src qc fuel qe = some r → qe ≤ r := by
  intro fuel
  induction fuel with
  | zero => intro qe r h; exact absurd h (by simp [pyFindQuoteLoopF])
  | succ n ih =>
    intro qe r h
    rw [pyFindQuoteLoopF] at h
    split at h
    · exact absurd h (by simp)
    · next e hf =>
      have h1 := (pyFind_spec _ _ _ _ hf).1
      split at h
      · have h2 := ih (e + 1) r h
        omega
      · simp only [Option.some.injEq] at h
        omega

theorem pyFindQuoteLoop_ge (src : List Char) (qc : Char) (qe r : Nat)
    (h : pyFindQuoteLoop src qc qe = some r) : qe ≤ r :=
  pyFindQuoteLoopF_ge src qc (src.length + 1) qe r h

theorem pyFindQuoteEnd_ge (st : TokState) (cur cur2 : Nat)
    (h : pyFindQuoteEnd st cur = .ok cur2) : cur ≤ cur2 := by
  unfold pyFindQuoteEnd at h
  split at h
  · exact absurd h (by simp)
  · split at h
    · exact absurd h (by simp)
    · next r hl =>
      split at h
      · exact absurd h (by simp)
      · have := pyFindQuoteLoop_ge _ _ _ _ hl
        simp only [Except.ok.injEq] at h
        omega

/-- Helper: peel one branch of the dispatch if-chain. -/
theorem except_map_ok {α : Type} (f : α → TokenKind × Nat) (x : Except PyErr α)
    (r : TokenKind × Nat) (h : x.map f = .ok r) : ∃ a, x = .ok a ∧ f a = r := by
  cases x with
  | error e => exact absurd h (by simp [Except.map])
  | ok a => exact ⟨a, rfl, by simpa [Except.map] using h⟩

theorem pyStringLiteral_ge (st : TokState) (cur cur2 : Nat)
    (h : pyStringLiteral st cur = .ok cur2) : cur ≤ cur2 := by
  unfold pyStringLiteral at h
  split at h
  · have := pyFindQuoteEnd_ge _ _ _ h; omega
  · split at h
    · have := pyFindQuoteEnd_ge _ _ _ h; omega
    · exact pyFindQuoteEnd_ge _ _ _ h

theorem pyCharConst_ge (st : TokState) (cur cur2 : Nat)
    (h : pyCharConst st cur = .ok cur2) : cur ≤ cur2 := by
  unfold pyCharConst at h
  split at h
  · have := pyFindQuoteEnd_ge _ _ _ h; omega
  · exact pyFindQuoteEnd_ge _ _ _ h

/-- The kinds the tokenizer can attach to a token: the three meta kinds, the
three coarse literal kinds, the identifier kind, and the punctuator kinds. -/
def tokenizerEmittedKinds : List TokenKind :=
  [.NL, .COMMENT, .WS, .PP_NUM, .STRING_LITERAL, .CHAR_CONST, .ID]
    ++ PUNCTUATION_TOKEN_MAP.map (·.2)

theorem fromPunctuator_mem (s : List Char) (k : TokenKind) (h : fromPunctuator s = some k) :
    k ∈ PUNCTUATION_TOKEN_MAP.map (·.2) := by
  unfold fromPunctuator at h
  cases hf : PUNCTUATION_TOKEN_MAP.find? (fun p => decide (p.1.toList = s)) with
  | none => rw [hf] at h; exact absurd h (by simp)
  | some p =>
    rw [hf] at h
    simp only [Option.map_some', Option.some.injEq] at h
    subst h
    exact List.mem_map_of_mem _ (List.mem_of_find?_eq_some hf)

theorem pyPunctuation_ok (st : TokState) (cur : Nat) (k : TokenKind) (cur2 : Nat)
    (h : pyPunctuation st cur = .ok (k, cur2)) :
    cur ≤ cur2 ∧ k ∈ tokenizerEmittedKinds := by
  unfold pyPunctuation at h
  cases hf : fromPunctuator (pySlice st.source st.previous (pyPunctAdvance st cur)) with
  | none => rw [hf] at h; exact absurd h (by simp)
  | some k2 =>
    rw [hf] at h
    simp only [Except.ok.injEq, Prod.mk.injEq] at h
    obtain ⟨hk, hc⟩ := h
    subst hk
    refine ⟨?_, by unfold tokenizerEmittedKinds; simp [fromPunctuator_mem _ _ hf]⟩
    have : cur ≤ pyPunctAdvance st cur := by
      unfold pyPunctAdvance
      split_ifs <;> omega
    omega

/-- Case analysis on the dispatch of `__next__`: any emitted kind is in the
coarse kind list, and the cursor never moves backwards. -/
theorem tokDispatch_ok (st : TokState) (k : TokenKind) (cur2 : Nat)
    (h : tokDispatch st = .ok (k, cur2)) :
    st.current ≤ cur2 ∧ k ∈ tokenizerEmittedKinds := by
  unfold tokDispatch at h
  split at h
  · -- line comment
    next h1 =>
    simp only [Except.ok.injEq, Prod.mk.injEq] at h
    obtain ⟨hk, hc⟩ := h
    subst hk
    refine ⟨?_, by decide⟩
    have hb := pyStartsWith_bound _ _ _ (by simp) h1
    simp only [List.length_cons, List.length_nil] at hb
    have := pyLineComment_ge st.source st.current (by omega)
    omega
  · split at h
    · -- block comment
      obtain ⟨c2, hb, hfc⟩ := except_map_ok _ _ _ h
      obtain ⟨hk, hcc⟩ := Prod.mk.injEq .. ▸ hfc
      subst hk
      exact ⟨hcc ▸ pyBlockComment_ge _ _ _ hb, by decide⟩
    · split at h
      · -- escaped newline: never returns ok
        exact absurd h (pyEscapedNewline_ne_ok _ _ _)
      · split at h
        · -- newline
          obtain ⟨c2, hn, hfc⟩ := except_map_ok _ _ _ h
          obtain ⟨hk, hcc⟩ := Prod.mk.injEq .. ▸ hfc
          subst hk
          exact ⟨hcc ▸ (pyNewlineStep_ge _ _ _ hn).1, by decide⟩
        · split at h
          · -- whitespace
            simp only [Except.ok.injEq, Prod.mk.injEq] at h
            obtain ⟨hk, hc⟩ := h
            subst hk
            exact ⟨hc ▸ pyWhitespace_ge _ _, by decide⟩
          · split at h
            · -- numeric literal
              simp only [Except.ok.injEq, Prod.mk.injEq] at h
              obtain ⟨hk, hc⟩ := h
              subst hk
              have := pyNumScan_ge st.source (st.current + 1)
              exact ⟨by omega, by decide⟩
            · split at h
              · -- string literal
                obtain ⟨c2, hs, hfc⟩ := except_map_ok _ _ _ h
                obtain ⟨hk, hcc⟩ := Prod.mk.injEq .. ▸ hfc
                subst hk
                exact ⟨hcc ▸ pyStringLiteral_ge _ _ _ hs, by decide⟩
              · split at h
                · -- char const
                  obtain ⟨c2, hs, hfc⟩ := except_map_ok _ _ _ h
                  obtain ⟨hk, hcc⟩ := Prod.mk.injEq .. ▸ hfc
                  subst hk
                  exact ⟨hcc ▸ pyCharConst_ge _ _ _ hs, by decide⟩
                · split at h
                  · -- identifier
                    simp only [Except.ok.injEq, Prod.mk.injEq] at h
                    obtain ⟨hk, hc⟩ := h
                    subst hk
                    exact ⟨hc ▸ pyIdentifierScan_ge _ _, by decide⟩
                  · split at h
                    · -- punctuation
                      exact pyPunctuation_ok st st.current k cur2 h
                    · -- invalid token: never ok
                      exact absurd h (by simp)

/-! ### The round-trip property of the tokenizer -/

theorem tokNext_none (st : TokState) (h : tokNext st = .ok none) :
    st.source.length ≤ st.current := by
  unfold tokNext at h
  split at h
  · next hc =>
    split at h
    · exact absurd h (by simp)
    · exact absurd h (by simp)
  · next hc => omega

theorem tokNext_step (st : TokState) (t : Token) (st2 : TokState)
    (h : tokNext st = .ok (some (t, st2))) :
    st2.source = st.source ∧ st2.previous = st2.current ∧ st.current ≤ st2.current ∧
      t.value = pySlice st.source st.previous st2.current ∧ t.kind ∈ tokenizerEmittedKinds := by
  unfold tokNext at h
  split at h
  · next hc =>
    cases hd : tokDispatch st with
    | error e => rw [hd] at h; exact absurd h (by simp)
    | ok r =>
      obtain ⟨k, cur2⟩ := r
      rw [hd] at h
      have hka := tokDispatch_ok st k cur2 hd
      simp only [Except.ok.injEq, Option.some.injEq, Prod.mk.injEq] at h
      obtain ⟨ht, hst⟩ := h
      subst ht
      by_cases hk : k = TokenKind.NL
      · subst hk
        simp only [reduceIte] at hst
        subst hst
        exact ⟨rfl, rfl, hka.1, rfl, hka.2⟩
      · simp only [hk, reduceIte] at hst
        subst hst
        exact ⟨rfl, rfl, hka.1, rfl, hka.2⟩
  · exact absurd h (by simp)

theorem pySlice_append_drop (l : List Char) (a b : Nat) (hab : a ≤ b) :
    pySlice l a b ++ l.drop b = l.drop a := by
  have h1 : l.drop a = ((l.take b) ++ l.drop b).drop a := by rw [List.take_append_drop]
  rw [List.drop_append_eq_append_drop] at h1
  unfold pySlice
  by_cases h2 : a ≤ (l.take b).length
  · have h0 : a - (l.take b).length = 0 := by omega
    rw [h0, List.drop_zero] at h1
    exact h1.symm
  · have hlen : (l.take b).length = min b l.length := List.length_take b l
    have hla : l.length < a := by omega
    have hd1 : l.drop b = [] := List.drop_eq_nil_of_le (by omega)
    have hd2 : (l.take b).drop a = [] := List.drop_eq_nil_of_le (by omega)
    have hd3 : l.drop a = [] := List.drop_eq_nil_of_le (by omega)
    simp [hd1, hd2, hd3]

theorem tokenizeAux_join (n : Nat) :
    ∀ (st : TokState) (toks : List Token), st.previous = st.current →
      tokenizeAux n st = .done toks →
      (toks.map Token.value).flatten = st.source.drop st.previous := by
  induction n with
  | zero => intro st toks _ h; exact absurd h (by simp [tokenizeAux])
  | succ n ih =>
    intro st toks hpc h
    unfold tokenizeAux at h
    split at h
    · exact absurd h (by simp)
    · next heq =>
      simp only [TokRun.done.injEq] at h
      subst h
      have hend := tokNext_none st heq
      have hd : st.source.drop st.previous = [] := List.drop_eq_nil_of_le (by omega)
      simp [hd]
    · next t st2 heq =>
      split at h
      · next ts hrec =>
        simp only [TokRun.done.injEq] at h
        subst h
        obtain ⟨hsrc, hpc2, hle, hval, -⟩ := tokNext_step st t st2 heq
        have ihts := ih st2 ts hpc2 hrec
        simp only [List.map_cons, List.flatten_cons]
        rw [ihts, hsrc, hval, hpc, hpc2]
        exact pySlice_append_drop st.source st.current st2.current hle
      · rename_i r hrec hne
        exact absurd h (hne toks)

/-- C2: for every source text on which the Tokenizer raises no error (a
complete drain of `Tokenizer(source, filename)` succeeding with `toks`),
concatenating the `value` of every emitted token — whitespace, comment and
newline tokens included — reproduces the original source exactly. -/
theorem c2_tokenizer_roundtrip (source filename : List Char) (fuel : Nat) (toks : List Token)
    (h : tokenizeAux fuel (initTok source filename) = .done toks) :
    (toks.map Token.value).flatten = source := by
  have hj := tokenizeAux_join fuel (initTok source filename) toks rfl h
  simpa [initTok] using hj

/-- Witness for C2 at the concrete source `ab`. -/
theorem c2_tokenizer_roundtrip_witness :
    tokenizeAux 3 (initTok "ab".toList "f".toList) =
        .done [⟨.ID, ['a'], 1, 0, 1, "f".toList⟩, ⟨.ID, ['b'], 1, 1, 2, "f".toList⟩] ∧
      (([⟨.ID, ['a'], 1, 0, 1, "f".toList⟩,
         (⟨.ID, ['b'], 1, 1, 2, "f".toList⟩ : Token)].map Token.value)).flatten
        = "ab".toList :=
  ⟨by decide, c2_tokenizer_roundtrip "ab".toList "f".toList 3 _ (by decide)⟩

/-- The finer literal kinds declared in `TokenKind` that the tokenizer never
attaches to a token. -/
def finerLiteralKinds : List TokenKind :=
  [.WSTRING_LITERAL, .U8STRING_LITERAL, .U16STRING_LITERAL, .U32STRING_LITERAL,
   .WCHAR_CONST, .U8CHAR_CONST, .U16CHAR_CONST, .U32CHAR_CONST,
   .INT_CONST_DEC, .INT_CONST_OCT, .INT_CONST_HEX, .INT_CONST_BIN,
   .INT_CONST_CHAR, .FLOAT_CONST, .HEX_FLOAT_CONST]

/-- C9: every token the Tokenizer emits has one of the coarse kinds — the
meta kinds, `PP_NUM` for every numeric literal, `STRING_LITERAL` for every
string literal (whatever its encoding prefix), `CHAR_CONST` for every char
constant, `ID`, or a punctuator kind — and never one of the finer literal
kinds (`WSTRING_LITERAL`, `U8STRING_LITERAL`, `INT_CONST_HEX`,
`FLOAT_CONST`, ...). -/
theorem c9_tokenizer_kinds_coarse (st : TokState) (t : Token) (st2 : TokState)
    (h : tokNext st = .ok (some (t, st2))) :
    t.kind ∈ tokenizerEmittedKinds ∧ t.kind ∉ finerLiteralKinds := by
  have hmem := (tokNext_step st t st2 h).2.2.2.2
  have hdisj : ∀ k ∈ tokenizerEmittedKinds, k ∉ finerLiteralKinds := by decide
  exact ⟨hmem, hdisj _ hmem⟩

/-- Witness for C9 at the wide string literal `L"x"` (kind `STRING_LITERAL`
despite the `L` prefix). -/
theorem c9_tokenizer_kinds_coarse_witness :
    tokNext (initTok "L\"x\"".toList "f".toList) =
        .ok (some (⟨.STRING_LITERAL, "L\"x\"".toList, 1, 0, 4, "f".toList⟩,
          ⟨"L\"x\"".toList, "f".toList, 4, 4, 1, 0⟩)) ∧
      ((⟨.STRING_LITERAL, "L\"x\"".toList, 1, 0, 4, "f".toList⟩ : Token).kind
          ∈ tokenizerEmittedKinds ∧
        (⟨.STRING_LITERAL, "L\"x\"".toList, 1, 0, 4, "f".toList⟩ : Token).kind
          ∉ finerLiteralKinds) :=
  ⟨by decide,
    c9_tokenizer_kinds_coarse (initTok "L\"x\"".toList "f".toList)
      ⟨.STRING_LITERAL, "L\"x\"".toList, 1, 0, 4, "f".toList⟩
      ⟨"L\"x\"".toList, "f".toList, 4, 4, 1, 0⟩ (by decide)⟩

/-- C8 (code bug): `Tokenizer.newline` re-reads `self.curr_char` after
consuming a `\r`, so a bare `\r` as the final character of the source makes
`self.source[self.current]` read past the end — an `IndexError` — instead of
emitting the newline token the claim describes.  On `\r\n` the rule behaves
as claimed: one newline token, no read past the end. -/
theorem c8_bare_cr_reads_past_end :
    tokNext (initTok [crChar] "f".toList) = .error .indexError ∧
      tokNext (initTok [crChar, lfChar] "f".toList) =
        .ok (some (⟨.NL, [crChar, lfChar], 1, 0, 2, "f".toList⟩,
          ⟨[crChar, lfChar], "f".toList, 2, 2, 2, 2⟩)) := by decide

/-- The five-character source `"a\\"` (quote, `a`, backslash, backslash,
quote): a closed string literal whose closing quote follows an even run of
backslashes. -/
def c4Input : List Char := [dqChar, 'a', bsChar, bsChar, dqChar]

/-- C4 (code bug): `_find_quote_end` only inspects the single character
before a quote candidate, not the parity of the backslash run, so the closing
quote of `"a\\"` — preceded by an even run of two backslashes — is treated as
escaped and the tokenizer raises `Unclosed string literal.` instead of
emitting the closed literal the claim describes. -/
theorem c4_even_backslash_run_rejected :
    tokenizeAux 10 (initTok c4Input "f".toList) =
      .failed (.syntaxErr "Unclosed string literal." "f".toList c4Input 1 0 0) := by decide

/-! ### Preprocessor claims -/

/-- C10: `PycpSyntaxError.from_token` re-opens the offending token's
`filename` and reads it up to line `lineno`; the documented syntax error is
produced exactly when that file is readable and long enough, and for a token
whose `filename` the file system cannot open — e.g. the default `<unknown>`
of an in-memory source — the attempt raises a different exception
(`OSError`), never the documented `PycpSyntaxError`. -/
theorem c10_from_token_reopens_file (fs : FS) (msg : String) (t : Token) :
    (∀ contents lineText, fs.read t.filename = some contents →
        (fileLines (univNl contents)).get? (t.lineno - 1) = some lineText →
        fromToken fs msg t =
          .syntaxErr msg t.filename lineText t.lineno t.col_offset t.end_col_offset) ∧
    (fs.read t.filename = none →
      fromToken fs msg t = .ioError t.filename ∧
      ∀ m f lt ln a b, fromToken fs msg t ≠ .syntaxErr m f lt ln a b) := by
  constructor
  · intro contents lineText h1 h2
    simp only [fromToken, h1, h2]
  · intro h1
    refine ⟨by simp only [fromToken, h1], ?_⟩
    intro m f lt ln a b
    simp only [fromToken, h1]
    simp

/-- The file system of the C10 witness. -/
def c10FS : FS := ⟨[("f.c".toList, "int x;\nint y;\n".toList)]⟩

/-- Witness for C10: a token from line 2 of a readable `f.c` yields the
documented syntax error; a token with the default `<unknown>` filename
yields `OSError` instead. -/
theorem c10_from_token_reopens_file_witness :
    fromToken c10FS "m" ⟨.ID, "y".toList, 2, 4, 5, "f.c".toList⟩ =
        .syntaxErr "m" "f.c".toList "int y;\n".toList 2 4 5 ∧
      fromToken c10FS "m" ⟨.ID, "y".toList, 1, 0, 1, "<unknown>".toList⟩ =
        .ioError "<unknown>".toList :=
  ⟨(c10_from_token_reopens_file c10FS "m" ⟨.ID, "y".toList, 2, 4, 5, "f.c".toList⟩).1
      "int x;\nint y;\n".toList "int y;\n".toList (by decide) (by decide),
   ((c10_from_token_reopens_file c10FS "m" ⟨.ID, "y".toList, 1, 0, 1, "<unknown>".toList⟩).2
      (by decide)).1⟩

/-- C7: for an `#include` whose resolved target cannot be opened (and is not
shielded by the once-sets): with `ignore_missing_includes = false` the
preprocessor raises `CannotOpenInclude` (the `from_token` error with the
`Cannot open included file` message, located at the include-name token);
with it `true`, no error is raised and the state — in particular the
upstream token stream — is unchanged, so no tokens are inserted for the
directive and the output simply continues. -/
theorem c7_missing_include (fs : FS) (st : PpState) (path : List Char) (tok : Token)
    (hOnce : path ∉ st.pragma_once_paths) (hGuard : path ∉ st.include_guarded_paths)
    (hMissing : fs.read path = none)
    (contents lineText : List Char)
    (hTokFile : fs.read tok.filename = some contents)
    (hLine : (fileLines (univNl contents)).get? (tok.lineno - 1) = some lineText) :
    (st.ignore_missing_includes = false →
      includeFile fs st path tok =
        .error (.syntaxErr (cannotOpenMsg path) tok.filename lineText tok.lineno
          tok.col_offset tok.end_col_offset)) ∧
    (st.ignore_missing_includes = true → includeFile fs st path tok = .ok st) := by
  have hcond : ¬(path ∈ st.pragma_once_paths ∨ path ∈ st.include_guarded_paths) := by
    simp [hOnce, hGuard]
  have hft : fromToken fs (cannotOpenMsg path) tok =
      .syntaxErr (cannotOpenMsg path) tok.filename lineText tok.lineno
        tok.col_offset tok.end_col_offset := by
    simp only [fromToken, hTokFile, hLine]
  unfold includeFile
  rw [if_neg hcond, hMissing]
  constructor <;> intro hig <;> simp [hig, hft]

/-- The file system, state and token of the C7 witness. -/
def c7FS : FS := ⟨[("main.c".toList, "#include \"missing.h\"\n".toList)]⟩

def c7Tok : Token := ⟨.STRING_LITERAL, "\"missing.h\"".toList, 1, 9, 21, "main.c".toList⟩

/-- Witness for C7: with the default configuration the missing include
raises `CannotOpenInclude`. -/
theorem c7_missing_include_witness :
    includeFile c7FS (initPp "#include \"missing.h\"\n".toList "main.c".toList)
        "missing.h".toList c7Tok =
      .error (.syntaxErr (cannotOpenMsg "missing.h".toList) "main.c".toList
        "#include \"missing.h\"\n".toList 1 9 21) :=
  (c7_missing_include c7FS (initPp "#include \"missing.h\"\n".toList "main.c".toList)
      "missing.h".toList c7Tok (by decide) (by decide) (by decide)
      "#include \"missing.h\"\n".toList "#include \"missing.h\"\n".toList
      (by decide) (by decide)).1 rfl

/-! ### C6: angle-bracket include names -/

/-- Plain buffered tokens as preprocessor iterator items. -/
def tokItems (ts : List Token) : List PpItem := ts.map .tok

theorem popRaw_nil (st : PpState) (hraw : st.raw = []) : popRaw st = .ok none := by
  unfold popRaw
  rw [hraw]
  simp [popRawAux]

theorem popRaw_cons (st : PpState) (t : Token) (ts : List Token)
    (hraw : st.raw = tokItems (t :: ts)) :
    popRaw st = .ok (some (t, { st with raw := tokItems ts })) := by
  unfold popRaw
  rw [hraw]
  simp [popRawAux, tokItems]

theorem takeUntilNl_tokItems : ∀ (ts : List Token) (fuel : Nat) (st : PpState),
    ts.length < fuel → st.raw = tokItems ts →
    takeUntilNl fuel st =
      .ok (ts.takeWhile (fun t => !decide (t.kind = TokenKind.NL)),
           { st with raw := tokItems (ts.drop
               ((ts.takeWhile (fun t => !decide (t.kind = TokenKind.NL))).length + 1)) }) := by
  intro ts
  induction ts with
  | nil =>
    intro fuel st hf hraw
    match fuel, hf with
    | fuel + 1, _ =>
      unfold takeUntilNl
      rw [popRaw_nil st (by simpa [tokItems] using hraw)]
      have hst : ({ st with raw := ([] : List PpItem) }) = st := by
        cases st
        simp only [tokItems, List.map_nil] at hraw
        simp [hraw]
      simp [tokItems, hst]
  | cons t ts ih =>
    intro fuel st hf hraw
    cases fuel with
    | zero => exact absurd hf (by omega)
    | succ n =>
      have hfuel2 : ts.length < n := by
        simp only [List.length_cons] at hf
        omega
      unfold takeUntilNl
      rw [popRaw_cons st t ts hraw]
      by_cases hk : t.kind = TokenKind.NL
      · simp [hk, List.takeWhile_cons]
      · simp [hk, ih n { st with raw := tokItems ts } hfuel2 rfl, List.takeWhile_cons]

/-- C6: for an `#include` whose target begins with a `<` token, let the line
tokens be those up to the first newline (`takewhile`).  The preprocessor
raises `ExpectedClosingAngle` — the `from_token` error with the
`Expected closing '>'` message at the `<` token — if and only if the line is
exhausted (by newline or end of stream) without its final token being a `>`;
when the final token is the terminating `>`, the include name is the
concatenation of the texts of the tokens strictly between `<` and `>`. -/
theorem c6_angle_include_closing (fs : FS) (fuel : Nat) (st : PpState) (ts : List Token)
    (nameTok : Token) (hk : nameTok.kind = TokenKind.LT) (hraw : st.raw = tokItems ts)
    (hf : ts.length < fuel) :
    (((ts.takeWhile (fun t => !decide (t.kind = TokenKind.NL))).getLast?.map Token.kind)
        = some TokenKind.GT →
      readIncludeName fs fuel st nameTok =
        .ok ((((ts.takeWhile (fun t => !decide (t.kind = TokenKind.NL))).dropLast.map
               Token.value).flatten), false,
             { st with raw := tokItems (ts.drop
                 ((ts.takeWhile (fun t => !decide (t.kind = TokenKind.NL))).length + 1)) })) ∧
    (¬ (((ts.takeWhile (fun t => !decide (t.kind = TokenKind.NL))).getLast?.map Token.kind)
        = some TokenKind.GT) →
      readIncludeName fs fuel st nameTok =
        .error (fromToken fs expectedClosingAngleMsg nameTok)) := by
  have hns : ¬ nameTok.kind = TokenKind.STRING_LITERAL := by rw [hk]; decide
  unfold readIncludeName
  rw [if_neg hns, if_pos hk, takeUntilNl_tokItems ts fuel st hf hraw]
  constructor <;> intro hgt <;> simp [hgt]

/-- The (empty) file system of the C6 witness. -/
def c6FSW : FS := ⟨[]⟩

/-- Tokens of the C6 witness: `foo`, `>`, newline. -/
def c6Toks : List Token :=
  [⟨.ID, "foo".toList, 1, 10, 13, "main.c".toList⟩,
   ⟨.GT, ">".toList, 1, 13, 14, "main.c".toList⟩,
   ⟨.NL, "\n".toList, 1, 14, 15, "main.c".toList⟩]

def c6St : PpState :=
  { initPp [] "main.c".toList with raw := tokItems c6Toks }

def c6NameTok : Token := ⟨.LT, "<".toList, 1, 9, 10, "main.c".toList⟩

/-- Witness for C6: `#include <foo>` has a terminating `>`, and the parsed
name is `foo`. -/
theorem c6_angle_include_closing_witness :
    readIncludeName c6FSW 10 c6St c6NameTok =
      .ok ("foo".toList, false, { c6St with raw := [] }) := by
  have h := (c6_angle_include_closing c6FSW 10 c6St c6Toks c6NameTok rfl rfl
    (by decide)).1 (by decide)
  simpa [c6Toks, tokItems] using h

/-! ### C1 and C5: end-to-end include scenarios -/

/-- File system for the C1 scenario: `main.c` includes `a.h`, which holds
`int X;`. -/
def c1FS : FS :=
  ⟨[("a.h".toList, "int X;\n".toList), ("main.c".toList, "#include \"a.h\"\n".toList)]⟩

/-- The token sequence of the included file's contents (what the claim says
should be spliced): tokenizing `int X;` with the resolved path `a.h` as the
filename. -/
def c1Expected : List Token :=
  [⟨.ID, "int".toList, 1, 0, 3, "a.h".toList⟩,
   ⟨.WS, [spChar], 1, 3, 4, "a.h".toList⟩,
   ⟨.ID, ['X'], 1, 4, 5, "a.h".toList⟩,
   ⟨.SEMICOLON, [';'], 1, 5, 6, "a.h".toList⟩,
   ⟨.NL, [lfChar], 1, 6, 7, "a.h".toList⟩]

/-- The preprocessor state after the first (and only) `__next__` call of the
C1 scenario: the call raised `StopIteration`, and the rebound
`self.raw_tokens` attribute holds the never-consumed splice — whose lexer,
because `_include_file` passes `(include_source, include_path)` to the
`(include_path, include_source)` parameters of
`_tokens_with_temp_local_dir`, tokenizes the path string `a.h` and carries
the file's *contents* as its filename. -/
def c1After : PpState :=
  { raw := [.pushDir [], .lexer (initTok "a.h".toList "int X;\n".toList), .popDir],
    local_dir := [], include_search_dirs := [], ignore_missing_includes := false,
    macros := [], prev_tok := some ⟨.PP_OCTO, ['#'], 1, 0, 1, "main.c".toList⟩,
    pragma_once_paths := [], include_guarded_paths := [], include_next_index := 1,
    dir_stack := [] }

/-- C1 (code bug): a successful `#include "a.h"` does not splice the
included file's tokens at all.  The first `__next__` call prepends the
splice by rebinding `self.raw_tokens`, but its `for` loop holds the frozen
(already exhausted) outer tokenizer, so the call ends in `StopIteration`
and the stream is empty — not `c1Expected`, the tokenization of the file's
contents that the claim requires.  The after-state also exhibits the
swapped-argument defect of `_include_file`: the pending splice tokenizes
the path string `a.h` with the file's contents as its filename. -/
theorem c1_include_spliced_tokens_never_yielded :
    ppDrain c1FS 50 (initPp "#include \"a.h\"\n".toList "main.c".toList) = .ok [] ∧
      ppNext c1FS 50 (initPp "#include \"a.h\"\n".toList "main.c".toList)
        = .ok (none, c1After) ∧
      tokenizeAux 10 (initTok "int X;\n".toList "a.h".toList) = .done c1Expected ∧
      c1Expected ≠ [] := by decide

/-- File system for the C5 scenario: `a.h` starts with `#pragma once` and
`main.c` includes it twice. -/
def c5FS : FS :=
  ⟨[("a.h".toList, "#pragma once\nint X;\n".toList),
    ("main.c".toList, "#include \"a.h\"\n#include \"a.h\"\n".toList)]⟩

/-- The tokens the preprocessor actually yields for the C5 scenario.  The
first `__next__` call processes the first `#include`, rebinds the attribute
with the (swapped-argument) splice, and — still pulling its frozen iterator —
returns the line-2 `#` token before the splice is ever seen; the next calls
drain the spliced path-string tokens `a`, `.`, `h` (whose filename is
`a.h`'s contents, and in which the `#pragma once` of `a.h` never appears);
with `prev_tok` never a newline at the right moment, the second `#include`
line's remaining tokens pass through literally. -/
def c5Actual : List Token :=
  [⟨.PP_OCTO, ['#'], 2, 0, 1, "main.c".toList⟩,
   ⟨.ID, ['a'], 1, 0, 1, "#pragma once\nint X;\n".toList⟩,
   ⟨.PERIOD, ['.'], 1, 1, 2, "#pragma once\nint X;\n".toList⟩,
   ⟨.ID, ['h'], 1, 2, 3, "#pragma once\nint X;\n".toList⟩,
   ⟨.ID, "include".toList, 2, 1, 8, "main.c".toList⟩,
   ⟨.STRING_LITERAL, [dqChar, 'a', '.', 'h', dqChar], 2, 9, 14, "main.c".toList⟩]

/-- C5 (code bug): preprocessing a file that includes `a.h` (which begins
with `#pragma once`) twice does not yield the tokens of `a.h` exactly once.
The swapped-argument include bug makes the splice tokenize the path string,
so `a.h`'s `#pragma once` is never processed and the once-set stays empty;
the frozen-iterator `for` loop of `__next__` emits the second line's `#`
ahead of the splice; and the second `#include` is never treated as a
directive.  The output is `c5Actual`, not the tokens of `a.h`. -/
theorem c5_pragma_once_scenario_fails :
    ppDrain c5FS 80 (initPp "#include \"a.h\"\n#include \"a.h\"\n".toList "main.c".toList)
        = .ok c5Actual ∧
      (c5Actual.map Token.value).flatten ≠ "int X;".toList := by decide

/-! ### C3: keyword classification -/

/-- The sample source of C3. -/
def c3Sample : List Char := "int main(void) \x7b return 1; \x7d\n".toList

/-- The token sequence the Tokenizer actually produces for `c3Sample`:
`int`, `main`, `void` and `return` all come out with the generic `ID` kind. -/
def c3SampleToks : List Token :=
  [⟨.ID, "int".toList, 1, 0, 3, "f.c".toList⟩,
   ⟨.WS, [spChar], 1, 3, 4, "f.c".toList⟩,
   ⟨.ID, "main".toList, 1, 4, 8, "f.c".toList⟩,
   ⟨.LPAREN, ['('], 1, 8, 9, "f.c".toList⟩,
   ⟨.ID, "void".toList, 1, 9, 13, "f.c".toList⟩,
   ⟨.RPAREN, [')'], 1, 13, 14, "f.c".toList⟩,
   ⟨.WS, [spChar], 1, 14, 15, "f.c".toList⟩,
   ⟨.LBRACE, ['\x7b'], 1, 15, 16, "f.c".toList⟩,
   ⟨.WS, [spChar], 1, 16, 17, "f.c".toList⟩,
   ⟨.ID, "return".toList, 1, 17, 23, "f.c".toList⟩,
   ⟨.WS, [spChar], 1, 23, 24, "f.c".toList⟩,
   ⟨.PP_NUM, ['1'], 1, 24, 25, "f.c".toList⟩,
   ⟨.SEMICOLON, [';'], 1, 25, 26, "f.c".toList⟩,
   ⟨.WS, [spChar], 1, 26, 27, "f.c".toList⟩,
   ⟨.RBRACE, ['\x7d'], 1, 27, 28, "f.c".toList⟩,
   ⟨.NL, [lfChar], 1, 28, 29, "f.c".toList⟩]

/-- Counterexample to C3: tokenizing the sample emits the token `int` with
kind `ID`, while the static keyword table maps `int` to the keyword kind
`INT` — so the scanned identifier whose text occurs in the keyword table
does *not* receive the corresponding keyword kind. -/
theorem c3_counterexample_keywords_not_classified :
    tokenizeAux 40 (initTok c3Sample "f.c".toList) = .done c3SampleToks ∧
      (c3SampleToks.head?.map Token.kind) = some TokenKind.ID ∧
      fromKeyword "int".toList = some TokenKind.INT ∧
      TokenKind.ID ≠ TokenKind.INT := by decide

/-- C3 (amended): `Tokenizer.identifier` never consults the keyword table —
every identifier, keyword text or not, is emitted with the generic `ID`
kind.  In particular, tokenizing `int main(void) { return 1; }\n` yields the
sequence `c3SampleToks`, in which `int`, `main`, `void` and `return` are all
`ID` tokens (the keyword table does map `int`, `void` and `return` to
keyword kinds, but no emitted token carries them). -/
theorem c3_amended_identifiers_always_ID :
    tokenizeAux 40 (initTok c3Sample "f.c".toList) = .done c3SampleToks ∧
      fromKeyword "int".toList = some TokenKind.INT ∧
      fromKeyword "void".toList = some TokenKind.VOID ∧
      fromKeyword "return".toList = some TokenKind.RETURN ∧
      (c3SampleToks.filter (fun t => t.value = "int".toList ∨ t.value = "void".toList
          ∨ t.value = "return".toList ∨ t.value = "main".toList)).map Token.kind
        = [.ID, .ID, .ID, .ID] := by decide

end Pycp
